import Mathlib

/-!
# Verification of the nanocrew agent lifecycle and change-propagation core

A shallow embedding, in Lean 4, of the core components of the `nanocrew`
repository: the config loader's key conversion (`nanocrew/config/loader.py`),
the agent registry's reload protocol (`nanocrew/agent/registry.py`), the
session binding resolution, the file cache's debounced invalidation
(`nanocrew/utils/file_cache.py`), the file watcher's event handler
(`nanocrew/config/watcher.py`), the event bus (`nanocrew/utils/events.py`),
and the multi-agent manager's live instance map (`nanocrew/agent/manager.py`).

Pure functions are translated directly; stateful methods become explicit
state-passing functions; the asyncio timing of the debounce is modelled as a
discrete timed trace semantics.  `nanocrew/config/schema.py` (the pydantic
`Config` / `AgentDefinition` model) is not part of the provided sources; the
few facts about it that the development needs (its fields, the default
configuration, the fallback of `get_agent` to `"main"`) are modelled from the
specification and from the repository's own tests, and are marked as such in
their doc comments.
-/

set_option autoImplicit false

namespace Nanocrew

/-! ## Key-case conversion (`nanocrew/config/loader.py`)

`camel_to_snake`, `snake_to_camel`, `convert_keys` and `convert_to_camel`
operate on parsed JSON documents.  JSON values are embedded as a mutual
inductive: leaves (strings, numbers, booleans, null) are collapsed into a
single `atom` constructor carrying an opaque payload, because the conversion
functions return every non-dict, non-list value unchanged; only dictionary
keys are ever inspected or rewritten. -/

/-- `camel_to_snake` body: for every character, emit `_` before an uppercase
character at index `> 0`, then emit the lowercased character.  The `first`
flag is true exactly at index `0`. -/
def camelToSnakeGo : List Char → Bool → List Char
  | [], _ => []
  | c :: cs, first =>
    if c.isUpper && !first then '_' :: c.toLower :: camelToSnakeGo cs false
    else c.toLower :: camelToSnakeGo cs false

/-- `camel_to_snake` from `nanocrew/config/loader.py`. -/
def camelToSnake (name : String) : String :=
  String.mk (camelToSnakeGo name.data true)

/-- Python `str.title()` restricted to ASCII: uppercase every alphabetic
character that does not follow an alphabetic character, lowercase the other
alphabetic characters, leave the rest unchanged. -/
def titleGo : List Char → Bool → List Char
  | [], _ => []
  | c :: cs, prevAlpha =>
    (if c.isAlpha then (if prevAlpha then c.toLower else c.toUpper) else c)
      :: titleGo cs c.isAlpha

/-- Python `str.title()` on one underscore-free component. -/
def titleCase (s : String) : String :=
  String.mk (titleGo s.data false)

/-- `name.split("_")` on the character list: maximal runs between
underscores, including empty runs at the ends and between consecutive
underscores, exactly as Python `str.split` with an explicit separator. -/
def splitUnderscoreGo : List Char → List Char → List (List Char)
  | [], acc => [acc.reverse]
  | c :: cs, acc =>
    if c = '_' then acc.reverse :: splitUnderscoreGo cs []
    else splitUnderscoreGo cs (c :: acc)

/-- `snake_to_camel` from `nanocrew/config/loader.py`: split on `_`, keep the
first component, `title()` the rest, concatenate. -/
def snakeToCamel (name : String) : String :=
  match splitUnderscoreGo name.data [] with
  | [] => ""
  | c :: rest =>
    String.mk c ++ String.join (rest.map fun cs => titleCase (String.mk cs))

/-- Python `":" in k`: for the one-character needle `":"` this is exactly
containment of the colon character. -/
def containsColon (k : String) : Bool :=
  k.data.contains ':'

mutual

/-- A parsed JSON document.  Leaves carry an opaque string payload. -/
inductive Json where
  | atom : String → Json
  | arr : JsonList → Json
  | obj : JsonFields → Json

/-- The elements of a JSON array. -/
inductive JsonList where
  | nil : JsonList
  | cons : Json → JsonList → JsonList

/-- The key/value fields of a JSON object, in document order. -/
inductive JsonFields where
  | nil : JsonFields
  | cons : String → Json → JsonFields → JsonFields

end

mutual

/-- `convert_keys` from `nanocrew/config/loader.py`: camelCase keys become
snake_case, except that a key containing `:` (a session identifier) is kept
verbatim; values are converted recursively; non-dict, non-list data is
returned unchanged. -/
def convertKeys : Json → Json
  | .atom s => .atom s
  | .arr l => .arr (convertKeysList l)
  | .obj fs => .obj (convertKeysFields fs)

/-- `convert_keys` mapped over the elements of a list. -/
def convertKeysList : JsonList → JsonList
  | .nil => .nil
  | .cons j l => .cons (convertKeys j) (convertKeysList l)

/-- `convert_keys` applied to each field of a dict. -/
def convertKeysFields : JsonFields → JsonFields
  | .nil => .nil
  | .cons k v fs =>
    .cons (if containsColon k then k else camelToSnake k)
      (convertKeys v) (convertKeysFields fs)

end

mutual

/-- `convert_to_camel` from `nanocrew/config/loader.py`: snake_case keys
become camelCase, except that a key containing `:` is kept verbatim. -/
def convertToCamel : Json → Json
  | .atom s => .atom s
  | .arr l => .arr (convertToCamelList l)
  | .obj fs => .obj (convertToCamelFields fs)

/-- `convert_to_camel` mapped over the elements of a list. -/
def convertToCamelList : JsonList → JsonList
  | .nil => .nil
  | .cons j l => .cons (convertToCamel j) (convertToCamelList l)

/-- `convert_to_camel` applied to each field of a dict. -/
def convertToCamelFields : JsonFields → JsonFields
  | .nil => .nil
  | .cons k v fs =>
    .cons (if containsColon k then k else snakeToCamel k)
      (convertToCamel v) (convertToCamelFields fs)

end

mutual

/-- `colonAligned j j'` holds when `j'` has exactly the shape of `j` and, at
every nesting depth, every dictionary key of `j` that contains a colon
appears unchanged at the same position in `j'`. -/
def colonAligned : Json → Json → Bool
  | .atom _, .atom _ => true
  | .arr l, .arr l2 => colonAlignedList l l2
  | .obj fs, .obj fs2 => colonAlignedFields fs fs2
  | _, _ => false

/-- Pointwise `colonAligned` on array elements. -/
def colonAlignedList : JsonList → JsonList → Bool
  | .nil, .nil => true
  | .cons j l, .cons j2 l2 => colonAligned j j2 && colonAlignedList l l2
  | _, _ => false

/-- Pointwise `colonAligned` on dict fields: colon-bearing keys must be
identical; all values recursively aligned. -/
def colonAlignedFields : JsonFields → JsonFields → Bool
  | .nil, .nil => true
  | .cons k v fs, .cons k2 v2 fs2 =>
    (if containsColon k then k == k2 else true)
      && colonAligned v v2 && colonAlignedFields fs fs2
  | _, _ => false

end

/-! ## Config data model

`nanocrew/config/schema.py` is not among the provided sources.  The shape of
`AgentDefinition` (its seven canonical fields) is pinned by
`AgentRegistry._detect_updates` in `nanocrew/agent/registry.py` and by §3 of
the specification; the default values are pinned by the migration defaults in
`nanocrew/config/loader.py`. -/

/-- The static description of one agent (`AgentDefinition` in
`nanocrew/config/schema.py`).  Modelled from the spec: only the seven
canonical fields checked by `_detect_updates` are represented; `temperature`
is embedded as a rational. -/
structure AgentDefinition where
  workspace : String
  model : String
  temperature : Rat
  max_tokens : Nat
  max_tool_iterations : Nat
  memory_window : Nat
  system_prompt : String
deriving DecidableEq

/-- First value bound to a key in an association list (Python `dict.get`,
with insertion order preserved and keys unique in any state we build). -/
def lookupKey {α : Type} : List (String × α) → String → Option α
  | [], _ => none
  | (k, v) :: rest, key => if k = key then some v else lookupKey rest key

/-- The `agents` section of the config: the registry map and the
session-to-agent bindings map, both in document order. -/
structure AgentsConfig where
  registry : List (String × AgentDefinition)
  bindings : List (String × String)
deriving DecidableEq

/-- The whole configuration document; only the `agents` section is
core-relevant. -/
structure Config where
  agents : AgentsConfig
deriving DecidableEq

/-- Modelled from the spec: the default `AgentDefinition`, with the default
values that `_migrate_config` in `nanocrew/config/loader.py` uses when
synthesizing `agents.registry.main`.  The temperature `0.7` is embedded as
the rational `7/10` in lowest terms, built with `Rat.mk'` so that concrete
equality tests reduce in the kernel. -/
def defaultAgentDef : AgentDefinition :=
  { workspace := "~/.nanocrew/workspaces/main"
    model := "anthropic/claude-opus-4-5"
    temperature := Rat.mk' 7 10 (by norm_num) (by norm_num)
    max_tokens := 8192
    max_tool_iterations := 20
    memory_window := 50
    system_prompt := "" }

/-- Modelled from the spec: `Config()` — the default configuration that
`load_config` falls back to.  Per §3, the reserved agent `"main"` exists in
the registry after any successful load; the bindings start empty. -/
def defaultConfig : Config :=
  { agents := { registry := [("main", defaultAgentDef)], bindings := [] } }

/-- `load_config` from `nanocrew/config/loader.py`, over the outcome of
parsing, migrating and validating the on-disk file.  The JSON parse and the
pydantic schema validation are abstracted into the `Except` argument
(`schema.py` is not among the sources); what the function itself contributes
is the `except (json.JSONDecodeError, ValueError)` branch, which logs a
warning and returns the default `Config()` instead of propagating the
failure. -/
def load_config (parsed : Except String Config) : Config :=
  match parsed with
  | .ok c => c
  | .error _ => defaultConfig

/-! ## Agent registry (`nanocrew/agent/registry.py`) -/

/-- The field names checked by `AgentRegistry._detect_updates`
(`fields_to_check`). -/
def fieldsToCheck : List String :=
  ["workspace", "model", "temperature", "max_tokens",
   "max_tool_iterations", "memory_window", "system_prompt"]

/-- `getattr(old_def, field) != getattr(new_def, field)` for each of the
seven canonical field names; any other name differs on nothing. -/
def fieldDiffers (a b : AgentDefinition) : String → Bool
  | "workspace" => a.workspace != b.workspace
  | "model" => a.model != b.model
  | "temperature" => a.temperature != b.temperature
  | "max_tokens" => a.max_tokens != b.max_tokens
  | "max_tool_iterations" => a.max_tool_iterations != b.max_tool_iterations
  | "memory_window" => a.memory_window != b.memory_window
  | "system_prompt" => a.system_prompt != b.system_prompt
  | _ => false

/-- The `changed` list computed inside `_detect_updates` for one agent. -/
def changedFields (a b : AgentDefinition) : List String :=
  fieldsToCheck.filter (fieldDiffers a b)

/-- `AgentRegistry._detect_updates`: for each name present in both the old
and the new registry, collect the changed canonical fields; agents with no
changed field are dropped.  The registries are the only inputs — the bindings
never enter.  (In the source the names come from the Python set
`old_agents & new_agents`, whose iteration order is unspecified; here the
common names are passed as a list.) -/
def detectUpdates (oldReg newReg : List (String × AgentDefinition))
    (common : List String) : List (String × List String) :=
  common.filterMap fun n =>
    match lookupKey oldReg n, lookupKey newReg n with
    | some o, some nw =>
      let ch := changedFields o nw
      if ch.isEmpty then none else some (n, ch)
    | _, _ => none

/-- A lifecycle event published on the event bus by `_emit_changes`
(`nanocrew/config/events.py`). -/
inductive AgentEvent where
  | added : String → AgentEvent
  | removed : String → AgentEvent
  | updated : String → List String → AgentEvent
deriving DecidableEq

/-- The first loop of `AgentRegistry._emit_changes`: one `agent.added` event
per added name, in order. -/
def emitAdded : List String → List AgentEvent
  | [] => []
  | n :: rest => .added n :: emitAdded rest

/-- The second loop of `_emit_changes`: one `agent.removed` event per removed
name, in order. -/
def emitRemoved : List String → List AgentEvent
  | [] => []
  | n :: rest => .removed n :: emitRemoved rest

/-- The third loop of `_emit_changes`: one `agent.updated` event per updated
name, carrying its changed-field list. -/
def emitUpdated : List (String × List String) → List AgentEvent
  | [] => []
  | (n, fs) :: rest => .updated n fs :: emitUpdated rest

/-- `AgentRegistry._emit_changes`: publish `agent.added`, then
`agent.removed`, then `agent.updated`, one event per changed name. -/
def emitChanges (added removed : List String)
    (updated : List (String × List String)) : List AgentEvent :=
  emitAdded added ++ emitRemoved removed ++ emitUpdated updated

/-- The mutable state of an `AgentRegistry`: the in-memory config, the
cached config-file mtime, and the agent-name set of the last load
(`_config`, `_last_mtime`, `_last_agents`). -/
structure RegState where
  config : Config
  lastMtime : Nat
  lastAgents : List String
deriving DecidableEq

/-- Keys of a registry map, in document order. -/
def keysOf (reg : List (String × AgentDefinition)) : List String :=
  reg.map Prod.fst

/-- `AgentRegistry._check_reload`, with the filesystem abstracted into the
current config-file mtime and the parse/validate outcome of its content, and
`asyncio.get_running_loop()` availability as the flag `hasLoop`.  Returns
the new state, the boolean result, and the lifecycle events the scheduled
`_emit_changes` task will publish (empty when no runtime is available).
Note that `load_config` cannot fail, so the `except` branch of
`_check_reload` (log and return `False`) is unreachable for parse or
validation errors. -/
def check_reload (st : RegState) (fileMtime : Nat)
    (parsed : Except String Config) (hasLoop : Bool) :
    RegState × Bool × List AgentEvent :=
  if fileMtime ≤ st.lastMtime then (st, false, [])
  else
    let newConfig := load_config parsed
    let oldAgents := st.lastAgents
    let newAgents := keysOf newConfig.agents.registry
    let added := newAgents.filter fun n => !(oldAgents.contains n)
    let removed := oldAgents.filter fun n => !(newAgents.contains n)
    let common := oldAgents.filter fun n => newAgents.contains n
    let updated :=
      detectUpdates st.config.agents.registry newConfig.agents.registry common
    ({ config := newConfig, lastMtime := fileMtime, lastAgents := newAgents },
     true,
     if hasLoop then emitChanges added removed updated else [])

/-- `AgentRegistry.list_agents` (after the reload check): a snapshot of the
registry map. -/
def list_agents (st : RegState) : List (String × AgentDefinition) :=
  st.config.agents.registry

/-- `AgentRegistry.get_agent_name_for_session` (after the reload check):
`self._config.agents.bindings.get(session_key)`; a truthy value is returned
as-is (with no check against the registry), a missing or falsy (empty)
value falls back to `"main"`. -/
def get_agent_name_for_session (st : RegState) (sessionKey : String) : String :=
  match lookupKey st.config.agents.bindings sessionKey with
  | some n => if n = "" then "main" else n
  | none => "main"

/-- Modelled from the spec: `Agents.get_agent` in the missing
`nanocrew/config/schema.py` — "returns the `AgentDefinition` for `name`, or
the `"main"` definition as fallback if `name` is unknown" (§4.4, confirmed
by `test_get_agent_config_not_found_defaults_to_main`). -/
def get_agent (reg : List (String × AgentDefinition)) (name : String) :
    Option AgentDefinition :=
  match lookupKey reg name with
  | some d => some d
  | none => lookupKey reg "main"

/-! ## File cache (`nanocrew/utils/file_cache.py`)

The cache map is an association list from absolute path to `CacheEntry`;
invalidator callbacks are opaque and represented by identifiers (their
effects live outside the component).  The debounce is modelled by a discrete
timed trace semantics over the `invalidate(P)` call times for one fixed
path. -/

/-- `CacheEntry` from `nanocrew/utils/file_cache.py`. -/
structure CacheEntry where
  mtime : Nat
  content : String
deriving DecidableEq

/-- The body of `_do_invalidate` once its debounce sleep has elapsed: delete
the path's entry if present (`if path in self._cache: del ...`), then call
`invalidator.invalidate(path)` on every registered invalidator — the
notification loop is unconditional and any callback exception is caught and
logged.  Returns the new cache map and the list of notified invalidators. -/
def do_invalidate (cache : List (String × CacheEntry))
    (invalidators : List String) (path : String) :
    List (String × CacheEntry) × List String :=
  let cache2 :=
    if (lookupKey cache path).isSome then cache.filter (fun e => e.1 != path)
    else cache
  (cache2, invalidators)

/-- One `invalidate(P)` call at time `t`, acting on the pending-timer state
for `P`.  The state is the optional deadline of the currently scheduled
`_do_invalidate` task, plus the times at which the debounced effect has
already fired.  A pending task whose deadline `f` satisfies `f ≤ t` has
already run its `asyncio.sleep` to completion before this call, so its fire
is recorded; otherwise the call cancels it (`task.cancel()`).  Either way
the call schedules a fresh task with deadline `t + W`
(`asyncio.create_task(_do_invalidate())` after `sleep(W)`). -/
def debounceStep (W : Nat) (s : Option Nat × List Nat) (t : Nat) :
    Option Nat × List Nat :=
  match s.1 with
  | none => (some (t + W), s.2)
  | some f => if f ≤ t then (some (t + W), s.2 ++ [f]) else (some (t + W), s.2)

/-- Process a trace of `invalidate(P)` call times in order, starting with no
pending task and no fires. -/
def debounceRun (W : Nat) (ts : List Nat) : Option Nat × List Nat :=
  ts.foldl (debounceStep W) (none, [])

/-- All times at which the debounced effect for `P` fires, given the call
times `ts` and no further calls afterwards: the fires that happened during
the trace, plus the still-pending task's deadline. -/
def fireTimes (W : Nat) (ts : List Nat) : List Nat :=
  match debounceRun W ts with
  | (none, fs) => fs
  | (some f, fs) => fs ++ [f]

/-! ## File watcher event handler (`nanocrew/config/watcher.py`) -/

/-- A watchdog filesystem event as seen by
`AgentFileEventHandler.on_modified`: the `is_directory` flag, whether the
event is a `FileModifiedEvent` instance, and `src_path`. -/
structure FsEvent where
  isDirectory : Bool
  isFileModified : Bool
  srcPath : String
deriving DecidableEq

/-- An action taken on the file cache. -/
inductive CacheAction where
  | invalidate : String → CacheAction
deriving DecidableEq

/-- `AgentFileEventHandler.on_modified`: ignore directory events and events
that are not `FileModifiedEvent`s; then, if `asyncio.get_running_loop()`
succeeds in the handler's thread (`hasRunningLoop`), schedule
`self._file_cache.invalidate(path)`; on `RuntimeError` (no running loop) the
invalidation is skipped — the source comments "Skip async invalidation -
will be reloaded on next access". -/
def on_modified (ev : FsEvent) (hasRunningLoop : Bool) : List CacheAction :=
  if ev.isDirectory then []
  else if !ev.isFileModified then []
  else if hasRunningLoop then [.invalidate ev.srcPath]
  else []

/-! ## Event bus (`nanocrew/utils/events.py`)

A handler is embedded as its identity plus a function from the event payload
to `Except` — a raised exception becomes `.error`.  `publish` snapshots the
topic's handler list, runs every handler on the event
(`asyncio.gather(..., return_exceptions=True)` collects each outcome
independently), then logs one line per failed handler with the handler's
identity and the topic; it never re-raises. -/

/-- A subscribed handler: an identity (`handler.__name__`) and the handler
body. -/
structure BusHandler where
  ident : String
  fn : String → Except String Unit

/-- An event: topic name and payload. -/
structure BusEvent where
  name : String
  payload : String

/-- The `gather` over `_safe_call(handler, event)`: every handler in the
snapshot is applied to the event; each outcome is recorded with the
handler's identity, independently of the other outcomes. -/
def runHandlers : List BusHandler → String → List (String × Except String Unit)
  | [], _ => []
  | h :: hs, payload => (h.ident, h.fn payload) :: runHandlers hs payload

/-- The logging loop at the end of `EventBus.publish`: one `(identity,
topic)` log entry per result that is an exception. -/
def publishLogs (topic : String)
    (results : List (String × Except String Unit)) : List (String × String) :=
  results.filterMap fun r =>
    match r.2 with
    | .error _ => some (r.1, topic)
    | .ok _ => none

/-- `EventBus.publish`: snapshot the handlers subscribed to the event's
topic, run them all, and log the failures.  The function is total — a
handler failure is contained and never propagated to the publisher. -/
def publish (subscribers : List (String × List BusHandler)) (ev : BusEvent) :
    List (String × Except String Unit) × List (String × String) :=
  let handlers := (lookupKey subscribers ev.name).getD []
  let results := runHandlers handlers ev.payload
  (results, publishLogs ev.name results)

/-! ## Agent manager live map (`nanocrew/agent/manager.py`)

For the live-set invariant only the keys of `self._loops` matter; the loop
objects themselves are opaque.  `get_loop` fetches the definition through
`registry.get_agent_config` — which falls back to `"main"`'s definition for
an unknown name instead of failing — and then inserts the *requested* name
into the live map.  The reserved agent `"main"` is assumed present, so
instance construction succeeds in the model. -/

/-- An operation on the manager observable at the live-map level. -/
inductive MgrOp where
  | getLoop : String → MgrOp
  | addedEvent : String → MgrOp
  | removedEvent : String → MgrOp
  | reloadAgents : MgrOp
deriving DecidableEq

/-- One step of the manager's live map (the keys of `self._loops`):
`get_loop` inserts the requested name if absent; the `agent.added` handler
pre-creates the instance if absent; the `agent.removed` handler pops the
name; `reload_agents` stops every loop and clears the map. -/
def mgrStep (live : List String) : MgrOp → List String
  | .getLoop n => if live.contains n then live else live ++ [n]
  | .addedEvent n => if live.contains n then live else live ++ [n]
  | .removedEvent n => live.filter (fun m => m != n)
  | .reloadAgents => []

/-- Run a sequence of manager operations from a live map. -/
def mgrRun (ops : List MgrOp) (live : List String) : List String :=
  ops.foldl mgrStep live

/-- `MultiAgentManager.list_active_agents`: the keys of the live map. -/
def list_active_agents (live : List String) : List String :=
  live

/-! ## Theorems -/

/-! ### C8 — colon keys survive both key conversions -/

mutual

theorem colonAligned_convertKeys : ∀ j : Json, colonAligned j (convertKeys j) = true
  | .atom s => by simp [convertKeys, colonAligned]
  | .arr l => by simp [convertKeys, colonAligned, colonAlignedList_convertKeys l]
  | .obj fs => by simp [convertKeys, colonAligned, colonAlignedFields_convertKeys fs]

theorem colonAlignedList_convertKeys :
    ∀ l : JsonList, colonAlignedList l (convertKeysList l) = true
  | .nil => by simp [convertKeysList, colonAlignedList]
  | .cons j l => by
    simp [convertKeysList, colonAlignedList, colonAligned_convertKeys j,
      colonAlignedList_convertKeys l]

theorem colonAlignedFields_convertKeys :
    ∀ fs : JsonFields, colonAlignedFields fs (convertKeysFields fs) = true
  | .nil => by simp [convertKeysFields, colonAlignedFields]
  | .cons k v fs => by
    cases h : containsColon k <;>
      simp [convertKeysFields, colonAlignedFields, h,
        colonAligned_convertKeys v, colonAlignedFields_convertKeys fs]

end

mutual

theorem colonAligned_convertToCamel :
    ∀ j : Json, colonAligned j (convertToCamel j) = true
  | .atom s => by simp [convertToCamel, colonAligned]
  | .arr l => by simp [convertToCamel, colonAligned, colonAlignedList_convertToCamel l]
  | .obj fs => by simp [convertToCamel, colonAligned, colonAlignedFields_convertToCamel fs]

theorem colonAlignedList_convertToCamel :
    ∀ l : JsonList, colonAlignedList l (convertToCamelList l) = true
  | .nil => by simp [convertToCamelList, colonAlignedList]
  | .cons j l => by
    simp [convertToCamelList, colonAlignedList, colonAligned_convertToCamel j,
      colonAlignedList_convertToCamel l]

theorem colonAlignedFields_convertToCamel :
    ∀ fs : JsonFields, colonAlignedFields fs (convertToCamelFields fs) = true
  | .nil => by simp [convertToCamelFields, colonAlignedFields]
  | .cons k v fs => by
    cases h : containsColon k <;>
      simp [convertToCamelFields, colonAlignedFields, h,
        colonAligned_convertToCamel v, colonAlignedFields_convertToCamel fs]

end

/-- Claim C8: for every configuration document, the camelCase-to-snake_case
conversion applied on load (`convert_keys`) and the snake_case-to-camelCase
conversion applied on save (`convert_to_camel`) leave every dictionary key
containing a colon unchanged, at every nesting depth, in both directions. -/
theorem C8_colon_keys_preserved (j : Json) :
    colonAligned j (convertKeys j) = true ∧ colonAligned j (convertToCamel j) = true :=
  ⟨colonAligned_convertKeys j, colonAligned_convertToCamel j⟩

/-! ### Concrete sample states used by witnesses and counterexamples -/

/-- A second agent definition, differing from the default in its workspace. -/
def backendDef : AgentDefinition :=
  { defaultAgentDef with workspace := "~/.nanocrew/workspaces/backend" }

/-- A registry state holding the good two-agent config `{main, backend}`,
with the config file's mtime cached at `1`. -/
def staleBackendState : RegState :=
  { config :=
      { agents :=
          { registry := [("main", defaultAgentDef), ("backend", backendDef)]
            bindings := [] } }
    lastMtime := 1
    lastAgents := ["main", "backend"] }

/-- A registry state whose bindings map `"feishu:T"` to the name `"ghost"`,
which is not present in the registry. -/
def ghostBindingState : RegState :=
  { config :=
      { agents :=
          { registry := [("main", defaultAgentDef)]
            bindings := [("feishu:T", "ghost")] } }
    lastMtime := 1
    lastAgents := ["main"] }

/-- A registry state whose bindings map `"cli:direct"` to the empty
string. -/
def emptyBindingState : RegState :=
  { config :=
      { agents :=
          { registry := [("main", defaultAgentDef)]
            bindings := [("cli:direct", "")] } }
    lastMtime := 1
    lastAgents := ["main"] }

/-! ### C9 — a falsy binding value resolves to "main" -/

/-- Claim C9: if the bindings map assigns a session key `S` the empty string,
`get_agent_name_for_session(S)` returns `"main"`: the Python truthiness test
`if agent_name:` treats the empty string like an absent binding instead of
returning it as the agent name. -/
theorem C9_empty_binding_is_main (st : RegState) (s : String)
    (h : lookupKey st.config.agents.bindings s = some "") :
    get_agent_name_for_session st s = "main" := by
  unfold get_agent_name_for_session
  rw [h]
  simp

/-- Witness for C9 at a concrete state: the binding of `"cli:direct"` is the
empty string, and the session resolves to `"main"`. -/
theorem C9_empty_binding_is_main_witness :
    lookupKey emptyBindingState.config.agents.bindings "cli:direct" = some ""
      ∧ get_agent_name_for_session emptyBindingState "cli:direct" = "main" :=
  ⟨by decide, C9_empty_binding_is_main emptyBindingState "cli:direct" (by decide)⟩

/-! ### C3 — session resolution does not fall back for unknown bound names -/

/-- Counterexample to claim C3: with the registry `{main}` and the binding
`"feishu:T" ↦ "ghost"`, `get_agent_name_for_session` returns `"ghost"`,
which is neither in the registry's agent-name set nor `"main"`: the function
returns the bound name without checking it against the registry. -/
theorem C3_counterexample :
    get_agent_name_for_session ghostBindingState "feishu:T" = "ghost"
      ∧ "ghost" ∉ keysOf (list_agents ghostBindingState)
      ∧ "ghost" ≠ "main" := by
  refine ⟨by decide, by decide, by decide⟩

/-- Claim C3 (amended): `get_agent_name_for_session(S)` returns either
`"main"` or exactly the non-empty name bound to `S` in the bindings map —
without any check of that name against the registry's agent-name set; in
particular a session bound to a name not present in the registry resolves to
that name, not to `"main"`. -/
theorem C3_session_name_resolution (st : RegState) (s : String) :
    get_agent_name_for_session st s = "main"
      ∨ (lookupKey st.config.agents.bindings s
          = some (get_agent_name_for_session st s)
        ∧ get_agent_name_for_session st s ≠ "") := by
  unfold get_agent_name_for_session
  cases h : lookupKey st.config.agents.bindings s with
  | none => exact Or.inl rfl
  | some n =>
    by_cases hn : n = ""
    · subst hn; simp
    · simp [hn]

/-! ### C1 — reload of a malformed config file -/

/-- Claim C1 (code bug evidence): starting from the good config
`{main, backend}` (cached mtime `1`), overwriting the config file with
malformed JSON (mtime `2`) makes `_check_reload` return `True`, replace the
in-memory config with the default one-agent config — `list_agents()` now
returns only `main` — and schedule an `agent.removed("backend")` lifecycle
event.  The claim (and §7 of the spec) requires `False`, an untouched
in-memory config, and no events; the `except` branch of `_check_reload` that
would implement this is unreachable, because `load_config` catches
`json.JSONDecodeError` and `ValueError` itself and returns the default
`Config()` instead of raising. -/
theorem C1_malformed_reload_divergence :
    (check_reload staleBackendState 2
        (.error "Expecting value: line 1 column 1 (char 0)") true).2.1 = true
      ∧ list_agents (check_reload staleBackendState 2
          (.error "Expecting value: line 1 column 1 (char 0)") true).1
        = [("main", defaultAgentDef)]
      ∧ (check_reload staleBackendState 2
          (.error "Expecting value: line 1 column 1 (char 0)") true).2.2
        = [AgentEvent.removed "backend"] := by
  refine ⟨by decide, by decide, by decide⟩

/-! ### C6 — update detection and emission order -/

theorem fieldDiffers_self (a : AgentDefinition) (f : String) :
    fieldDiffers a a f = false := by
  unfold fieldDiffers
  split <;> simp

theorem changedFields_self (a : AgentDefinition) : changedFields a a = [] := by
  unfold changedFields
  rw [List.filter_eq_nil_iff]
  intro f _
  simp [fieldDiffers_self]

theorem changedFields_ne_nil (o nw : AgentDefinition) :
    changedFields o nw ≠ [] ↔ ∃ f ∈ fieldsToCheck, fieldDiffers o nw f = true := by
  unfold changedFields
  rw [Ne, List.filter_eq_nil_iff]
  push_neg
  simp

theorem mem_detectUpdates (oldReg newReg : List (String × AgentDefinition))
    (common : List String) (n : String) (o nw : AgentDefinition)
    (h1 : lookupKey oldReg n = some o) (h2 : lookupKey newReg n = some nw) :
    n ∈ (detectUpdates oldReg newReg common).map Prod.fst ↔
      n ∈ common ∧ changedFields o nw ≠ [] := by
  induction common with
  | nil => simp [detectUpdates]
  | cons m rest ih =>
    by_cases hmn : m = n
    · subst hmn
      by_cases hch : changedFields o nw = []
      · have hstep : detectUpdates oldReg newReg (m :: rest)
            = detectUpdates oldReg newReg rest := by
          simp [detectUpdates, List.filterMap_cons, h1, h2, hch]
        rw [hstep, ih]
        simp [hch]
      · have hstep : detectUpdates oldReg newReg (m :: rest)
            = (m, changedFields o nw) :: detectUpdates oldReg newReg rest := by
          simp [detectUpdates, List.filterMap_cons, h1, h2,
            List.isEmpty_iff, hch]
        rw [hstep]
        simp [hch]
    · have hstep : (detectUpdates oldReg newReg (m :: rest)).map Prod.fst
          = (detectUpdates oldReg newReg rest).map Prod.fst
        ∨ (detectUpdates oldReg newReg (m :: rest)).map Prod.fst
          = m :: (detectUpdates oldReg newReg rest).map Prod.fst := by
        simp only [detectUpdates, List.filterMap_cons]
        cases hm1 : lookupKey oldReg m with
        | none => exact Or.inl rfl
        | some a =>
          cases hm2 : lookupKey newReg m with
          | none => exact Or.inl rfl
          | some b =>
            by_cases hch : (changedFields a b).isEmpty
            · exact Or.inl (by simp [hch])
            · exact Or.inr (by simp [hch])
      have hne : n ≠ m := fun h => hmn h.symm
      rcases hstep with hs | hs <;> rw [hs] <;>
        simp [List.mem_cons, ih, hne, hmn]


theorem detectUpdates_self (reg : List (String × AgentDefinition)) :
    ∀ common : List String, detectUpdates reg reg common = [] := by
  intro common
  induction common with
  | nil => rfl
  | cons m rest ih =>
    simp only [detectUpdates, List.filterMap_cons] at ih ⊢
    cases h : lookupKey reg m with
    | none => simpa [h] using ih
    | some a => simpa [h, changedFields_self a] using ih

theorem emitAdded_eq_map : ∀ ns : List String, emitAdded ns = ns.map AgentEvent.added
  | [] => rfl
  | n :: rest => by simp [emitAdded, emitAdded_eq_map rest]

theorem emitRemoved_eq_map :
    ∀ ns : List String, emitRemoved ns = ns.map AgentEvent.removed
  | [] => rfl
  | n :: rest => by simp [emitRemoved, emitRemoved_eq_map rest]

theorem emitUpdated_eq_map : ∀ ps : List (String × List String),
    emitUpdated ps = ps.map fun p => AgentEvent.updated p.1 p.2
  | [] => rfl
  | (n, fs) :: rest => by simp [emitUpdated, emitUpdated_eq_map rest]

/-- Claim C6: on a successful reload the updated set is exactly the agent
names present in both registries for which at least one of the seven
canonical fields differs — the bindings never enter `_detect_updates`, so a
binding change alone (equal registries) yields no update — and
`_emit_changes` publishes `agent.added` events, then `agent.removed` events,
then `agent.updated` events, one event per changed name. -/
theorem C6_updates_and_emission :
    (∀ (oldReg newReg : List (String × AgentDefinition)) (common : List String)
        (n : String) (o nw : AgentDefinition),
        lookupKey oldReg n = some o → lookupKey newReg n = some nw →
        (n ∈ (detectUpdates oldReg newReg common).map Prod.fst ↔
          n ∈ common ∧ ∃ f ∈ fieldsToCheck, fieldDiffers o nw f = true))
      ∧ (∀ (reg : List (String × AgentDefinition)) (common : List String),
          detectUpdates reg reg common = [])
      ∧ (∀ (added removed : List String) (updated : List (String × List String)),
          emitChanges added removed updated
            = added.map AgentEvent.added ++ removed.map AgentEvent.removed
              ++ updated.map fun p => AgentEvent.updated p.1 p.2) := by
  refine ⟨?_, ?_, ?_⟩
  · intro oldReg newReg common n o nw h1 h2
    rw [mem_detectUpdates oldReg newReg common n o nw h1 h2,
      changedFields_ne_nil]
  · exact detectUpdates_self
  · intro added removed updated
    simp [emitChanges, emitAdded_eq_map, emitRemoved_eq_map, emitUpdated_eq_map]

/-- The backend definition after an edit of its `model` field. -/
def updatedBackendDef : AgentDefinition :=
  { backendDef with model := "anthropic/claude-sonnet-4" }

/-- The old and new registries of a reload that edits `backend`'s model. -/
def regBefore : List (String × AgentDefinition) :=
  [("main", defaultAgentDef), ("backend", backendDef)]

/-- The new registry of that reload. -/
def regAfter : List (String × AgentDefinition) :=
  [("main", defaultAgentDef), ("backend", updatedBackendDef)]

/-- Witness for C6 at a concrete reload: `backend` is in both registries and
its `model` field differs, so `backend` is in the updated set. -/
theorem C6_updates_and_emission_witness :
    lookupKey regBefore "backend" = some backendDef
      ∧ lookupKey regAfter "backend" = some updatedBackendDef
      ∧ ("backend" ∈ (detectUpdates regBefore regAfter ["main", "backend"]).map Prod.fst ↔
          "backend" ∈ ["main", "backend"]
            ∧ ∃ f ∈ fieldsToCheck, fieldDiffers backendDef updatedBackendDef f = true) :=
  ⟨by decide, by decide,
    C6_updates_and_emission.1 regBefore regAfter ["main", "backend"] "backend"
      backendDef updatedBackendDef (by decide) (by decide)⟩

/-! ### C7 — per-handler error isolation in publish -/

theorem mem_runHandlers (payload : String) :
    ∀ (hs : List BusHandler) (h : BusHandler), h ∈ hs →
      (h.ident, h.fn payload) ∈ runHandlers hs payload := by
  intro hs
  induction hs with
  | nil => intro h hmem; cases hmem
  | cons hd tl ih =>
    intro h hmem
    rcases List.mem_cons.mp hmem with rfl | hmem
    · exact List.mem_cons_self _ _
    · exact List.mem_cons_of_mem _ (ih h hmem)

theorem length_runHandlers (payload : String) :
    ∀ hs : List BusHandler, (runHandlers hs payload).length = hs.length
  | [] => rfl
  | hd :: tl => by simp [runHandlers, length_runHandlers payload tl]

theorem mem_publishLogs (topic : String)
    (results : List (String × Except String Unit)) (ident : String)
    (e : String) (hmem : (ident, Except.error e) ∈ results) :
    (ident, topic) ∈ publishLogs topic results := by
  unfold publishLogs
  rw [List.mem_filterMap]
  exact ⟨(ident, Except.error e), hmem, rfl⟩

/-- Claim C7: during `publish(event)`, every handler in the snapshot taken at
publish time is invoked on the event — the recorded outcome of each handler
is that handler applied to the event, independent of any other handler's
failure — each failing handler is logged with its identity and the topic,
and `publish` is a total function: it returns its results instead of
propagating any handler failure to the publisher. -/
theorem C7_handler_isolation (subscribers : List (String × List BusHandler))
    (ev : BusEvent) (h : BusHandler)
    (hmem : h ∈ (lookupKey subscribers ev.name).getD []) :
    (h.ident, h.fn ev.payload) ∈ (publish subscribers ev).1
      ∧ (∀ e : String, h.fn ev.payload = .error e →
          (h.ident, ev.name) ∈ (publish subscribers ev).2)
      ∧ (publish subscribers ev).1.length
          = ((lookupKey subscribers ev.name).getD []).length := by
  refine ⟨mem_runHandlers ev.payload _ h hmem, ?_, length_runHandlers ev.payload _⟩
  intro e herr
  apply mem_publishLogs ev.name _ h.ident e
  rw [← herr]
  exact mem_runHandlers ev.payload _ h hmem

/-- A handler that succeeds on every event. -/
def goodHandler : BusHandler :=
  { ident := "good", fn := fun _ => .ok () }

/-- A handler that raises on every event. -/
def badHandler : BusHandler :=
  { ident := "bad", fn := fun _ => .error "boom" }

/-- The subscriber table of the witness: a failing handler subscribed before
a succeeding one on the same topic. -/
def sampleSubscribers : List (String × List BusHandler) :=
  [("agent.added", [badHandler, goodHandler])]

/-- The event published in the witness. -/
def sampleEvent : BusEvent :=
  { name := "agent.added", payload := "backend" }

/-- Witness for C7 at a concrete publish: although `badHandler` fails, the
later `goodHandler` is still invoked and its successful outcome is recorded;
both handlers are dispatched. -/
theorem C7_handler_isolation_witness :
    goodHandler ∈ (lookupKey sampleSubscribers sampleEvent.name).getD []
      ∧ ((goodHandler.ident, goodHandler.fn sampleEvent.payload)
            ∈ (publish sampleSubscribers sampleEvent).1
        ∧ (∀ e : String, goodHandler.fn sampleEvent.payload = .error e →
            (goodHandler.ident, sampleEvent.name)
              ∈ (publish sampleSubscribers sampleEvent).2)
        ∧ (publish sampleSubscribers sampleEvent).1.length
            = ((lookupKey sampleSubscribers sampleEvent.name).getD []).length) :=
  have hmem : goodHandler ∈ (lookupKey sampleSubscribers sampleEvent.name).getD [] := by
    simp [sampleSubscribers, sampleEvent, lookupKey]
  ⟨hmem, C7_handler_isolation sampleSubscribers sampleEvent goodHandler hmem⟩

/-! ### C5 and C10 — debounced invalidation -/

theorem lookupKey_none_filter (p : String) :
    ∀ cache : List (String × CacheEntry), lookupKey cache p = none →
      cache.filter (fun e => e.1 != p) = cache := by
  intro cache
  induction cache with
  | nil => intro _; rfl
  | cons e rest ih =>
    intro h
    unfold lookupKey at h
    by_cases hk : e.1 = p
    · simp [hk] at h
    · simp only [List.filter_cons]
      rw [if_pos (by simpa using hk), ih (by simpa [hk] using h)]

theorem do_invalidate_fst (cache : List (String × CacheEntry))
    (invs : List String) (p : String) :
    (do_invalidate cache invs p).1 = cache.filter (fun e => e.1 != p) := by
  unfold do_invalidate
  by_cases h : (lookupKey cache p).isSome
  · simp [h]
  · rw [Option.not_isSome_iff_eq_none] at h
    simp [Option.isSome_none, h, lookupKey_none_filter p cache h]

theorem debounce_aux (W : Nat) :
    ∀ (ts : List Nat) (prev : Nat) (acc : List Nat),
      List.Chain' (fun a b => a ≤ b ∧ b < a + W) (prev :: ts) →
      ts.foldl (debounceStep W) (some (prev + W), acc)
        = (some ((prev :: ts).getLast (List.cons_ne_nil prev ts) + W), acc) := by
  intro ts
  induction ts with
  | nil => intro prev acc _; simp [List.getLast]
  | cons t rest ih =>
    intro prev acc hchain
    rw [List.chain'_cons] at hchain
    obtain ⟨⟨hle, hlt⟩, hchain2⟩ := hchain
    have hstep : debounceStep W (some (prev + W), acc) t = (some (t + W), acc) := by
      unfold debounceStep
      simp [Nat.not_le.mpr hlt]
    rw [List.foldl_cons, hstep, ih t acc hchain2]
    simp [List.getLast_cons]

/-- Claim C5: for `N ≥ 2` `invalidate(P)` calls whose consecutive times all
fall within a sliding window of length `W`, the debounced effect fires
exactly once, exactly `W` after the last call (hence no earlier than `W`
after it); and the effect of that one fire is the removal of `P`'s cache
entry followed by one `invalidate(P)` call to each registered invalidator. -/
theorem C5_debounce_single_fire (W t : Nat) (rest : List Nat)
    (cache : List (String × CacheEntry)) (invs : List String) (p : String)
    (_hN : rest ≠ [])
    (hchain : List.Chain' (fun a b => a ≤ b ∧ b < a + W) (t :: rest)) :
    fireTimes W (t :: rest) = [(t :: rest).getLast (List.cons_ne_nil t rest) + W]
      ∧ (do_invalidate cache invs p).1 = cache.filter (fun e => e.1 != p)
      ∧ (do_invalidate cache invs p).2 = invs := by
  refine ⟨?_, do_invalidate_fst cache invs p, rfl⟩
  unfold fireTimes debounceRun
  rw [List.foldl_cons]
  have h0 : debounceStep W (none, []) t = (some (t + W), []) := rfl
  rw [h0, debounce_aux W rest t [] hchain]
  rfl

/-- A one-entry cache for the debounce witnesses. -/
def sampleCache : List (String × CacheEntry) :=
  [("/ws/AGENTS.md", { mtime := 1, content := "v1" })]

/-- Witness for C5: two calls at times `0` and `3` with window `W = 5` fire
once, at time `8 = 3 + 5`, removing the entry and notifying both
invalidators. -/
theorem C5_debounce_single_fire_witness :
    ([3] : List Nat) ≠ []
      ∧ List.Chain' (fun a b : Nat => a ≤ b ∧ b < a + 5) [0, 3]
      ∧ (fireTimes 5 (0 :: [3])
            = [(0 :: [3]).getLast (List.cons_ne_nil 0 [3]) + 5]
        ∧ (do_invalidate sampleCache ["context", "skills"] "/ws/AGENTS.md").1
            = sampleCache.filter (fun e => e.1 != "/ws/AGENTS.md")
        ∧ (do_invalidate sampleCache ["context", "skills"] "/ws/AGENTS.md").2
            = ["context", "skills"]) :=
  ⟨by decide, by simp [List.chain'_cons],
    C5_debounce_single_fire 5 0 [3] sampleCache ["context", "skills"]
      "/ws/AGENTS.md" (by decide) (by simp [List.chain'_cons])⟩

/-- Claim C10: when the debounce window elapses, the invalidator
notification loop of `_do_invalidate` runs unconditionally: every registered
invalidator is notified for `P` even if `P` has no cache entry at that
moment (in which case the cache map is left unchanged); no prior successful
cached read of `P` is required. -/
theorem C10_notify_without_entry (cache : List (String × CacheEntry))
    (invs : List String) (p : String) :
    (do_invalidate cache invs p).2 = invs
      ∧ (lookupKey cache p = none → (do_invalidate cache invs p).1 = cache) := by
  refine ⟨rfl, ?_⟩
  intro h
  unfold do_invalidate
  simp [h]

/-- Witness for C10: the path `/ws/SOUL.md` has no entry in `sampleCache`,
yet both registered invalidators are notified and the cache is unchanged. -/
theorem C10_notify_without_entry_witness :
    lookupKey sampleCache "/ws/SOUL.md" = none
      ∧ (do_invalidate sampleCache ["context", "skills"] "/ws/SOUL.md").2
          = ["context", "skills"]
      ∧ (do_invalidate sampleCache ["context", "skills"] "/ws/SOUL.md").1
          = sampleCache :=
  ⟨by decide,
    (C10_notify_without_entry sampleCache ["context", "skills"] "/ws/SOUL.md").1,
    (C10_notify_without_entry sampleCache ["context", "skills"] "/ws/SOUL.md").2
      (by decide)⟩

/-! ### C2 — watcher file-modified events and cache invalidation -/

/-- Counterexample to claim C2 as stated: a non-directory `FileModifiedEvent`
delivered to the handler when no asyncio event loop is running in the
handler's thread produces no `cache.invalidate` call at all — the handler
catches the `RuntimeError` from `asyncio.get_running_loop()` and skips the
invalidation. -/
theorem C2_counterexample :
    on_modified
      { isDirectory := false, isFileModified := true, srcPath := "/ws/AGENTS.md" }
      false = [] := rfl

/-- Claim C2 (amended): for every file-modified filesystem event whose path
is not a directory, provided an asyncio event loop is running in the
handler's context, the handler schedules exactly `cache.invalidate(P)` for
the event's path `P`; a single such invalidation fires `W` after the call,
removing `P`'s entry and notifying every registered invalidator.  With no
running event loop the invalidation is skipped. -/
theorem C2_modified_invalidates (ev : FsEvent) (W t : Nat)
    (cache : List (String × CacheEntry)) (invs : List String)
    (hdir : ev.isDirectory = false) (hmod : ev.isFileModified = true) :
    on_modified ev true = [.invalidate ev.srcPath]
      ∧ fireTimes W [t] = [t + W]
      ∧ (do_invalidate cache invs ev.srcPath).1
          = cache.filter (fun e => e.1 != ev.srcPath)
      ∧ (do_invalidate cache invs ev.srcPath).2 = invs := by
  refine ⟨?_, rfl, do_invalidate_fst cache invs ev.srcPath, rfl⟩
  unfold on_modified
  simp [hdir, hmod]

/-- Witness for C2 (amended) at a concrete event with a running loop. -/
theorem C2_modified_invalidates_witness :
    (FsEvent.mk false true "/ws/AGENTS.md").isDirectory = false
      ∧ (FsEvent.mk false true "/ws/AGENTS.md").isFileModified = true
      ∧ (on_modified (FsEvent.mk false true "/ws/AGENTS.md") true
            = [.invalidate "/ws/AGENTS.md"]
        ∧ fireTimes 5 [3] = [3 + 5]
        ∧ (do_invalidate sampleCache ["context"] "/ws/AGENTS.md").1
            = sampleCache.filter (fun e => e.1 != "/ws/AGENTS.md")
        ∧ (do_invalidate sampleCache ["context"] "/ws/AGENTS.md").2
            = ["context"]) :=
  ⟨rfl, rfl,
    C2_modified_invalidates (FsEvent.mk false true "/ws/AGENTS.md") 5 3
      sampleCache ["context"] rfl rfl⟩

/-! ### C4 — the manager's live map -/

theorem mem_mgrStep (live : List String) (op : MgrOp) (n : String)
    (h : n ∈ mgrStep live op) :
    n ∈ live ∨ op = .getLoop n ∨ op = .addedEvent n := by
  cases op with
  | getLoop m =>
    by_cases hc : live.contains m
    · simp only [mgrStep, hc, if_pos] at h
      exact Or.inl h
    · simp only [mgrStep, hc, Bool.false_eq_true, if_neg, not_false_iff,
        List.mem_append, List.mem_singleton] at h
      rcases h with h | rfl
      · exact Or.inl h
      · exact Or.inr (Or.inl rfl)
  | addedEvent m =>
    by_cases hc : live.contains m
    · simp only [mgrStep, hc, if_pos] at h
      exact Or.inl h
    · simp only [mgrStep, hc, Bool.false_eq_true, if_neg, not_false_iff,
        List.mem_append, List.mem_singleton] at h
      rcases h with h | rfl
      · exact Or.inl h
      · exact Or.inr (Or.inr rfl)
  | removedEvent m =>
    simp only [mgrStep, List.mem_filter] at h
    exact Or.inl h.1
  | reloadAgents =>
    simp [mgrStep] at h

theorem mem_mgrRun (ops : List MgrOp) :
    ∀ (live : List String) (n : String), n ∈ mgrRun ops live →
      n ∈ live ∨ MgrOp.getLoop n ∈ ops ∨ MgrOp.addedEvent n ∈ ops := by
  induction ops with
  | nil => intro live n h; exact Or.inl h
  | cons op rest ih =>
    intro live n h
    rcases ih (mgrStep live op) n h with hmem | hop
    · rcases mem_mgrStep live op n hmem with hmem2 | rfl | rfl
      · exact Or.inl hmem2
      · exact Or.inr (Or.inl (List.mem_cons_self _ _))
      · exact Or.inr (Or.inr (List.mem_cons_self _ _))
    · rcases hop with hop | hop
      · exact Or.inr (Or.inl (List.mem_cons_of_mem _ hop))
      · exact Or.inr (Or.inr (List.mem_cons_of_mem _ hop))

/-- Counterexample to claim C4 as stated: the single operation
`get_loop("ghost")` against the default one-agent registry inserts `"ghost"`
into the live map — `get_agent_config` silently falls back to `"main"`'s
definition instead of failing, and `get_loop` stores the instance under the
requested name — so the live set is not a subset of the registry's agent
names. -/
theorem C4_counterexample :
    "ghost" ∈ list_active_agents (mgrRun [.getLoop "ghost"] [])
      ∧ "ghost" ∉ keysOf defaultConfig.agents.registry
      ∧ get_agent defaultConfig.agents.registry "ghost" = some defaultAgentDef := by
  refine ⟨by decide, by decide, by decide⟩

/-- Claim C4 (amended): after any sequence of operations, every agent name
in the Manager's live map was inserted lazily — by a `get_loop` call with
that name or by the `agent.added` handler — and an `agent.removed(n)` event
removes `n` from the live map; but the live set need not be a subset of the
Registry's agent names, because `get_loop` with an unknown name inserts that
name (its instance built from `"main"`'s definition via the registry
fallback). -/
theorem C4_live_map_membership (ops : List MgrOp) (live : List String)
    (n : String) :
    (n ∈ list_active_agents (mgrRun ops live) →
        n ∈ live ∨ MgrOp.getLoop n ∈ ops ∨ MgrOp.addedEvent n ∈ ops)
      ∧ mgrRun (ops ++ [.removedEvent n]) live
          = (mgrRun ops live).filter (fun m => m != n) := by
  constructor
  · exact mem_mgrRun ops live n
  · simp [mgrRun, List.foldl_append, mgrStep]

/-- Witness for C4 (amended): the name `"backend"`, live after a `get_loop`
call, indeed entered via one of the two lazy paths; and appending an
`agent.removed("backend")` event purges it. -/
theorem C4_live_map_membership_witness :
    ("backend" ∈ ([] : List String)
        ∨ MgrOp.getLoop "backend" ∈ [MgrOp.getLoop "backend"]
        ∨ MgrOp.addedEvent "backend" ∈ [MgrOp.getLoop "backend"])
      ∧ mgrRun ([MgrOp.getLoop "backend"] ++ [.removedEvent "backend"]) []
          = (mgrRun [MgrOp.getLoop "backend"] []).filter (fun m => m != "backend") :=
  ⟨(C4_live_map_membership [MgrOp.getLoop "backend"] [] "backend").1 (by decide),
    (C4_live_map_membership [MgrOp.getLoop "backend"] [] "backend").2⟩

end Nanocrew
